import Mathlib

/-!
Verification of the crius circuit-breaker library core.

The embedding models the top-level modules `window.rs`,
`circuit_breaker_stats.rs`, `circuit_breaker.rs` and `command.rs`.
Rust `Duration` values are modelled as nanosecond counts (`Nat`,
bounded by `durationMaxNanos`), `Instant` values as `Int` nanosecond
timestamps, and every function that reads `Instant::now()` takes the
current time as an explicit `now` argument.  Methods taking `&mut
self` are modelled by explicit state passing.
-/

namespace Crius

/-- Source `Point` from `window.rs`: one recorded operation outcome. -/
inductive Point
  | SUCCESS
  | FAILURE
  deriving DecidableEq, Repr

/-- Source `Bucket` from `window.rs`: the samples recorded during one fixed
time slice, together with the slice's reference timestamp. -/
structure Bucket where
  points : List Point
  timestamp : Int
  deriving DecidableEq, Repr

/-- Source `Config` from `command.rs` (the top-level variant with plain,
non-optional fields). -/
structure Config where
  error_threshold : Int
  error_threshold_percentage : Int
  buckets_in_window : Nat
  bucket_size_in_ms : Nat
  circuit_open_ms : Nat
  threadpool_size : Int
  circuit_breaker_enabled : Bool
  deriving DecidableEq, Repr

/-- Source `Config::default()` from `command.rs`. -/
def Config.default : Config :=
  { error_threshold := 10
    error_threshold_percentage := 50
    buckets_in_window := 10
    bucket_size_in_ms := 1000
    circuit_open_ms := 5000
    threadpool_size := 10
    circuit_breaker_enabled := true }

/-- The largest value representable by Rust's `std::time::Duration`
(`u64::MAX` seconds plus `999_999_999` nanoseconds), in nanoseconds.
This equals `2^64 * 10^9 - 1`. -/
def durationMaxNanos : Nat := 2 ^ 64 * 10 ^ 9 - 1

/-- Source `Duration::from_millis`, in nanoseconds. -/
def durationFromMillis (ms : Nat) : Nat := ms * 1000000

/-- Source `Duration::checked_mul`: `none` exactly when the product exceeds
the representable duration range. -/
def durationCheckedMul (d : Nat) (k : Nat) : Option Nat :=
  if d * k ≤ durationMaxNanos then some (d * k) else none

/-- Source `Window` from `window.rs`.  The `VecDeque` of buckets is a list,
oldest bucket first (`push_back` appends at the end, `pop_front`
removes the head). -/
structure Window where
  buckets : List Bucket
  bucket_ms : Nat
  buckets_nr : Nat
  window_size : Nat
  deriving DecidableEq, Repr

/-- Source `Window::new` from `window.rs`: `None` iff
`bucket_ms.checked_mul(buckets_in_window)` overflows; otherwise an
empty window. -/
def Window.new (config : Config) : Option Window :=
  let bucket_ms := durationFromMillis config.bucket_size_in_ms
  let window_size := durationCheckedMul bucket_ms config.buckets_in_window
  window_size.map (fun window_size =>
    { bucket_ms := bucket_ms
      window_size := window_size
      buckets := []
      buckets_nr := config.buckets_in_window })

/-- Source `Window::update_window_returning_latest_bucket` from `window.rs`.
The returned "latest bucket" is always the last bucket of the
resulting list, so the embedding returns just the updated window. -/
def Window.update_window_returning_latest_bucket (w : Window) (now : Int) : Window :=
  match w.buckets.getLast? with
  | some bucket =>
    let threshold := bucket.timestamp + (w.bucket_ms : Int)
    if threshold > now then
      w
    else
      let pushed := w.buckets ++ [{ points := [], timestamp := threshold }]
      if pushed.length > w.buckets_nr then
        { w with buckets := pushed.tail }
      else
        { w with buckets := pushed }
  | none =>
    { w with buckets := [{ points := [], timestamp := now }] }

/-- Appending a point to the last bucket of the deque (the effect of
`current_bucket.points.push(point)` on the bucket returned by
`update_window_returning_latest_bucket`). -/
def pushPointLast (l : List Bucket) (point : Point) : List Bucket :=
  match l with
  | [] => []
  | [b] => [{ b with points := b.points ++ [point] }]
  | b :: rest => b :: pushPointLast rest point

/-- Source `Window::add_point` from `window.rs`. -/
def Window.add_point (w : Window) (now : Int) (point : Point) : Window :=
  let w2 := w.update_window_returning_latest_bucket now
  { w2 with buckets := pushPointLast w2.buckets point }

/-- Source `Window::clear_window` from `window.rs`. -/
def Window.clear_window (w : Window) : Window :=
  { w with buckets := [] }

/-- Source `Window::update_and_get_points` from `window.rs` (top-level
variant): collects the points of all buckets whose timestamp is
strictly newer than `now - window_size`.  The body reads but never
writes the window, so the state component of the result is the
unchanged window. -/
def Window.update_and_get_points (w : Window) (now : Int) : List Point × Window :=
  let threshold := now - (w.window_size : Int)
  ((w.buckets.filter (fun bucket => bucket.timestamp > threshold)).foldl
      (fun acc bucket => acc ++ bucket.points) [],
    w)

/-- Source `CircuitBreakerStats` from `circuit_breaker_stats.rs`. -/
structure CircuitBreakerStats where
  window : Window
  deriving DecidableEq, Repr

/-- Source `CircuitBreakerStats::add_point`. -/
def CircuitBreakerStats.add_point (s : CircuitBreakerStats) (now : Int) (point : Point) :
    CircuitBreakerStats :=
  { s with window := s.window.add_point now point }

/-- Source `CircuitBreakerStats::clear`. -/
def CircuitBreakerStats.clear (s : CircuitBreakerStats) : CircuitBreakerStats :=
  { s with window := s.window.clear_window }

/-- Source `CircuitBreakerStats::success_nr`. -/
def CircuitBreakerStats.success_nr (s : CircuitBreakerStats) (now : Int) : Int :=
  (((s.window.update_and_get_points now).1.filter
      (fun point => point = Point.SUCCESS)).length : Int)

/-- Source `CircuitBreakerStats::error_nr`. -/
def CircuitBreakerStats.error_nr (s : CircuitBreakerStats) (now : Int) : Int :=
  (((s.window.update_and_get_points now).1.filter
      (fun point => point = Point.FAILURE)).length : Int)

/-- Source `CircuitBreakerStats::success_percentage`, exactly as written in
`circuit_breaker_stats.rs`: `0` when the success count is `0`,
otherwise `(success_nr / points.len() as i32) * 100` with truncating
integer division. -/
def CircuitBreakerStats.success_percentage (s : CircuitBreakerStats) (now : Int) : Int :=
  let points := (s.window.update_and_get_points now).1
  let success_nr := s.success_nr now
  if success_nr = 0 then 0
  else (success_nr / (points.length : Int)) * 100

/-- Source `CircuitBreakerStats::error_percentage`, exactly as written in
`circuit_breaker_stats.rs`: `0` when the failure count is `0`,
otherwise `(error_nr / points.len() as i32) * 100` with truncating
integer division. -/
def CircuitBreakerStats.error_percentage (s : CircuitBreakerStats) (now : Int) : Int :=
  let points := (s.window.update_and_get_points now).1
  let error_nr := s.error_nr now
  if error_nr = 0 then 0
  else (error_nr / (points.length : Int)) * 100

/-- Source `CriusError` from `error.rs`. -/
inductive CriusError
  | ExecutionRejected
  | InvalidConfig
  deriving DecidableEq, Repr

/-- Source `CircuitBreaker` from `circuit_breaker.rs`. -/
structure CircuitBreaker where
  circuit_breaker_stats : CircuitBreakerStats
  circuit_open_time : Option Int
  config : Config
  deriving DecidableEq, Repr

/-- Source `CircuitBreaker::new` from `circuit_breaker.rs`. -/
def CircuitBreaker.new (config : Config) : Except CriusError CircuitBreaker :=
  match Window.new config with
  | some window =>
    .ok { circuit_breaker_stats := { window := window }
          circuit_open_time := none
          config := config }
  | none => .error CriusError.InvalidConfig

/-- Source `CircuitBreaker::time_to_close_circuit`:
`Instant::now() - Duration::from_millis(circuit_open_ms)`. -/
def CircuitBreaker.time_to_close_circuit (cb : CircuitBreaker) (now : Int) : Int :=
  now - (durationFromMillis cb.config.circuit_open_ms : Int)

/-- Source `CircuitBreaker::should_close_open_circuit`. -/
def CircuitBreaker.should_close_open_circuit (cb : CircuitBreaker) (now : Int) : Bool :=
  match cb.circuit_open_time with
  | some open_time => decide (open_time ≤ cb.time_to_close_circuit now)
  | none => false

/-- Source `CircuitBreaker::should_keep_circuit_open`. -/
def CircuitBreaker.should_keep_circuit_open (cb : CircuitBreaker) (now : Int) : Bool :=
  match cb.circuit_open_time with
  | some open_time => decide (open_time > cb.time_to_close_circuit now)
  | none => false

/-- Source `CircuitBreaker::should_open_circuit`. -/
def CircuitBreaker.should_open_circuit (cb : CircuitBreaker) (now : Int) : Bool :=
  decide (cb.circuit_breaker_stats.error_percentage now ≥
      cb.config.error_threshold_percentage) &&
    decide (cb.circuit_breaker_stats.error_nr now ≥ cb.config.error_threshold)

/-- Source `CircuitBreaker::check_command_allowed`, returning the decision
together with the updated breaker state. -/
def CircuitBreaker.check_command_allowed (cb : CircuitBreaker) (now : Int) :
    Bool × CircuitBreaker :=
  if cb.should_close_open_circuit now then
    (true, { cb with circuit_open_time := none })
  else if cb.should_keep_circuit_open now then
    (false, cb)
  else if cb.should_open_circuit now then
    (false, { cb with
      circuit_open_time := some now
      circuit_breaker_stats := cb.circuit_breaker_stats.clear })
  else
    (true, cb)

/-- Source `CircuitBreaker::register_result`. -/
def CircuitBreaker.register_result {T E : Type} (cb : CircuitBreaker) (now : Int)
    (res : Except E T) : CircuitBreaker :=
  match res with
  | .ok _ =>
    { cb with circuit_breaker_stats :=
        cb.circuit_breaker_stats.add_point now Point.SUCCESS }
  | .error _ =>
    { cb with circuit_breaker_stats :=
        cb.circuit_breaker_stats.add_point now Point.FAILURE }

/-- Source `Command` from `command.rs`.  The `E: From<CriusError>` trait
bound is passed to `run` as an explicit conversion function. -/
structure Command (I O E : Type) where
  cmd : I → Except E O
  fallback : Option (E → O)
  circuit_breaker : CircuitBreaker

/-- Source `Command::define`. -/
def Command.define {I O E : Type} (cfg : Config) (cmd : I → Except E O) :
    Except CriusError (Command I O E) :=
  match CircuitBreaker.new cfg with
  | .ok cb => .ok { cmd := cmd, fallback := none, circuit_breaker := cb }
  | .error e => .error e

/-- Source `Command::define_with_fallback`. -/
def Command.define_with_fallback {I O E : Type} (cfg : Config) (cmd : I → Except E O)
    (fallback : E → O) : Except CriusError (Command I O E) :=
  match CircuitBreaker.new cfg with
  | .ok cb => .ok { cmd := cmd, fallback := some fallback, circuit_breaker := cb }
  | .error e => .error e

/-- The observable outcome of one `Command::run` call: the returned
result, the mutated command, and whether the wrapped operation was
actually invoked. -/
structure RunResult (I O E : Type) where
  result : Except E O
  command : Command I O E
  opInvoked : Bool

/-- Source `Command::run` from `command.rs`. -/
def Command.run {I O E : Type} (conv : CriusError → E) (c : Command I O E) (param : I)
    (now : Int) : RunResult I O E :=
  if c.circuit_breaker.config.circuit_breaker_enabled = false then
    { result := c.cmd param, command := c, opInvoked := true }
  else
    let checked := c.circuit_breaker.check_command_allowed now
    if checked.1 then
      let result := c.cmd param
      let cb2 := checked.2.register_result now result
      match result with
      | .ok v =>
        { result := .ok v
          command := { c with circuit_breaker := cb2 }
          opInvoked := true }
      | .error err =>
        match c.fallback with
        | some fb =>
          { result := .ok (fb err)
            command := { c with circuit_breaker := cb2 }
            opInvoked := true }
        | none =>
          { result := .error err
            command := { c with circuit_breaker := cb2 }
            opInvoked := true }
    else
      let err := conv CriusError.ExecutionRejected
      match c.fallback with
      | some fb =>
        { result := .ok (fb err)
          command := { c with circuit_breaker := checked.2 }
          opInvoked := false }
      | none =>
        { result := .error err
          command := { c with circuit_breaker := checked.2 }
          opInvoked := false }

/-- Run a command once per entry of a list of call instants, threading
the breaker state, and collect each call's result together with
whether the operation was invoked. -/
def Command.runMany {I O E : Type} (conv : CriusError → E) (c : Command I O E) (param : I) :
    List Int → List (Except E O × Bool) × Command I O E
  | [] => ([], c)
  | t :: ts =>
    let r := Command.run conv c param t
    let rest := Command.runMany conv r.command param ts
    ((r.result, r.opInvoked) :: rest.1, rest.2)

/-- The effect of one `Command::run` call on the breaker state alone,
given whether the wrapped operation (if invoked) succeeded. -/
def CircuitBreaker.runEffect (cb : CircuitBreaker) (now : Int) (opOk : Bool) :
    CircuitBreaker :=
  if cb.config.circuit_breaker_enabled = false then
    cb
  else
    let checked := cb.check_command_allowed now
    if checked.1 then
      checked.2.register_result now
        (if opOk then (Except.ok () : Except Unit Unit) else Except.error ())
    else
      checked.2

/-- Breaker states reachable, through `Command::run` calls, from a
freshly constructed breaker for configuration `cfg`. -/
inductive CircuitBreaker.Reachable (cfg : Config) : CircuitBreaker → Prop
  | init (cb : CircuitBreaker) : CircuitBreaker.new cfg = .ok cb →
      CircuitBreaker.Reachable cfg cb
  | step (cb : CircuitBreaker) (now : Int) (opOk : Bool) :
      CircuitBreaker.Reachable cfg cb →
      CircuitBreaker.Reachable cfg (cb.runEffect now opOk)

/-- One externally triggerable window operation, used to state the
window invariants over arbitrary call sequences. -/
inductive WindowOp
  | add (now : Int) (point : Point)
  | snapshot (now : Int)
  | clear

/-- Apply one window operation. -/
def Window.applyOp (w : Window) : WindowOp → Window
  | .add now point => w.add_point now point
  | .snapshot now => (w.update_and_get_points now).2
  | .clear => w.clear_window

/-- Apply a sequence of window operations, oldest first. -/
def Window.applyOps (w : Window) (ops : List WindowOp) : Window :=
  ops.foldl Window.applyOp w

/-- The buckets of a deque are ordered when their timestamps strictly
increase along the sequence. -/
def bucketsOrdered (l : List Bucket) : Prop :=
  List.Chain' (fun a b => a.timestamp < b.timestamp) l

/-- The window invariant claimed by the specification: strictly
increasing bucket timestamps and at most `buckets_nr` buckets. -/
def WindowInv (w : Window) : Prop :=
  bucketsOrdered w.buckets ∧ w.buckets.length ≤ w.buckets_nr

instance {E O : Type} [DecidableEq E] [DecidableEq O] : DecidableEq (Except E O) :=
  fun a b =>
    match a, b with
    | .ok x, .ok y =>
      if h : x = y then .isTrue (congrArg Except.ok h)
      else .isFalse (fun hc => h (Except.ok.inj hc))
    | .error x, .error y =>
      if h : x = y then .isTrue (congrArg Except.error h)
      else .isFalse (fun hc => h (Except.error.inj hc))
    | .ok _, .error _ => .isFalse (fun hc => Except.noConfusion hc)
    | .error _, .ok _ => .isFalse (fun hc => Except.noConfusion hc)

/-- A caller error type mirroring the one in `tests/command_test.rs`:
`internal` is the operation's own error, `external` is the value the
`From<CriusError>` conversion produces. -/
inductive TestError
  | internal
  | external
  deriving DecidableEq, Repr

/-- The `From<CriusError> for TestError` conversion from the tests. -/
def testConv : CriusError → TestError := fun _ => TestError.external

/-- The window produced by `Window::new(Config::default())`: empty,
with 10 buckets of 1000 ms (1e9 ns) each, total span 1e10 ns. -/
def baseWindow : Window :=
  { buckets := []
    bucket_ms := 1000000000
    buckets_nr := 10
    window_size := 10000000000 }

/-- Stats over a freshly built default window after recording one
success and one failure at instant 0. -/
def c1Stats : CircuitBreakerStats :=
  ((CircuitBreakerStats.mk baseWindow).add_point 0 Point.SUCCESS).add_point 0 Point.FAILURE

/-- Configuration with `error_threshold = 1`,
`error_threshold_percentage = 50` and defaults otherwise. -/
def c2Config : Config :=
  { Config.default with error_threshold := 1 }

/-- The breaker produced by `CircuitBreaker::new(c2Config)`. -/
def c2Breaker0 : CircuitBreaker :=
  { circuit_breaker_stats := { window := baseWindow }
    circuit_open_time := none
    config := c2Config }

/-- State of `c2Breaker0` after registering one failed and one successful
result at instant 0 (failure count 1, true failure percentage 50). -/
def c2Breaker : CircuitBreaker :=
  (c2Breaker0.register_result 0 (Except.error () : Except Unit Unit)).register_result 0
    (Except.ok () : Except Unit Unit)

/-- Configuration of the end-to-end scenario: `error_threshold = 5`,
`error_threshold_percentage = 50`, defaults otherwise. -/
def c3Config : Config :=
  { Config.default with error_threshold := 5 }

/-- The breaker produced by `CircuitBreaker::new(c3Config)`. -/
def c3Breaker0 : CircuitBreaker :=
  { circuit_breaker_stats := { window := baseWindow }
    circuit_open_time := none
    config := c3Config }

/-- The always-failing operation of the end-to-end scenario. -/
def c3Op : Unit → Except TestError Int := fun _ => .error TestError.internal

/-- The command `Command::define(c3Config, c3Op)`. -/
def c3Command : Command Unit Int TestError :=
  { cmd := c3Op, fallback := none, circuit_breaker := c3Breaker0 }

/-- The fallback `|_| 5` of the end-to-end scenario. -/
def c3Fb : TestError → Int := fun _ => 5

/-- The command `Command::define_with_fallback(c3Config, c3Op, c3Fb)`. -/
def c3CommandFb : Command Unit Int TestError :=
  { cmd := c3Op, fallback := some c3Fb, circuit_breaker := c3Breaker0 }

/-- A window holding one success sample in a fresh bucket, used to
witness the snapshot-recency theorem. -/
def c5Window : Window :=
  { baseWindow with buckets := [{ points := [Point.SUCCESS], timestamp := 0 }] }

/-- Default configuration except `buckets_in_window = 0`. -/
def c7ZeroBucketsConfig : Config :=
  { Config.default with buckets_in_window := 0 }

/-- The window produced by `Window::new(c7ZeroBucketsConfig)`. -/
def c7ZeroBucketsWindow : Window :=
  { buckets := [], bucket_ms := 1000000000, buckets_nr := 0, window_size := 0 }

/-- Default configuration except `bucket_size_in_ms = 0`. -/
def c7ZeroSizeConfig : Config :=
  { Config.default with bucket_size_in_ms := 0 }

/-- The window produced by `Window::new(c7ZeroSizeConfig)`. -/
def c7ZeroSizeWindow : Window :=
  { buckets := [], bucket_ms := 0, buckets_nr := 10, window_size := 0 }

/-- A configuration whose window span
`bucket_size_ms * buckets_in_window` overflows `Duration`
(`u64::MAX` milliseconds times `u32::MAX` buckets). -/
def c8OverflowConfig : Config :=
  { Config.default with
      bucket_size_in_ms := 18446744073709551615
      buckets_in_window := 4294967295 }

/-- A command with a fallback over the default configuration, used to
witness the fallback-totality theorem. -/
def c9Command : Command Unit Int TestError :=
  { cmd := fun _ => .error TestError.internal
    fallback := some c3Fb
    circuit_breaker :=
      { circuit_breaker_stats := { window := baseWindow }
        circuit_open_time := none
        config := Config.default } }

/-- Default configuration except both trip thresholds are `0`. -/
def c10Config : Config :=
  { Config.default with error_threshold := 0, error_threshold_percentage := 0 }

/-- The breaker produced by `CircuitBreaker::new(c10Config)`. -/
def c10Breaker0 : CircuitBreaker :=
  { circuit_breaker_stats := { window := baseWindow }
    circuit_open_time := none
    config := c10Config }

/-- An always-succeeding operation for the degenerate-threshold
scenario. -/
def c10Op : Unit → Except TestError Int := fun _ => .ok 7

/-- The command `Command::define(c10Config, c10Op)`. -/
def c10Command : Command Unit Int TestError :=
  { cmd := c10Op, fallback := none, circuit_breaker := c10Breaker0 }

/-- The command `Command::define_with_fallback(c10Config, c10Op, c3Fb)`. -/
def c10CommandFb : Command Unit Int TestError :=
  { cmd := c10Op, fallback := some c3Fb, circuit_breaker := c10Breaker0 }

/-- The breaker for `c10Config` after one `run` call at instant 0:
the degenerate thresholds trip it immediately, so it is Open with
`circuit_open_time = some 0` and a cleared window. -/
def c4BreakerOpen : CircuitBreaker :=
  c10Breaker0.runEffect 0 false

end Crius


namespace Crius

theorem stats_counts_of_empty (s : CircuitBreakerStats) (h : s.window.buckets = [])
    (now : Int) : s.error_nr now = 0 ∧ s.success_nr now = 0 := by
  unfold CircuitBreakerStats.error_nr CircuitBreakerStats.success_nr
    Window.update_and_get_points
  rw [h]
  simp

theorem stats_pct_of_empty (s : CircuitBreakerStats) (h : s.window.buckets = [])
    (now : Int) : s.error_percentage now = 0 ∧ s.success_percentage now = 0 := by
  unfold CircuitBreakerStats.error_percentage CircuitBreakerStats.success_percentage
  rw [(stats_counts_of_empty s h now).1, (stats_counts_of_empty s h now).2]
  simp

theorem foldl_points_eq (l : List Bucket) (init : List Point) :
    l.foldl (fun acc bucket => acc ++ bucket.points) init =
      init ++ (l.map Bucket.points).flatten := by
  induction l generalizing init with
  | nil => simp
  | cons b bs ih => simp [ih, List.append_assoc]

/-- C5: every sample returned by the snapshot operation comes from a
bucket whose timestamp lies within one window span of the current
time; buckets older than the span never contribute, even when not yet
evicted by count. -/
theorem c5_snapshot_recent (w : Window) (now : Int) (p : Point)
    (hp : p ∈ (w.update_and_get_points now).1) :
    ∃ b : Bucket, b ∈ w.buckets ∧ p ∈ b.points ∧
      now - b.timestamp < (w.window_size : Int) := by
  unfold Window.update_and_get_points at hp
  dsimp only at hp
  rw [foldl_points_eq] at hp
  simp only [List.nil_append, List.mem_flatten, List.mem_map] at hp
  obtain ⟨pts, ⟨b, hbmem, rfl⟩, hppts⟩ := hp
  rw [List.mem_filter] at hbmem
  refine ⟨b, hbmem.1, hppts, ?_⟩
  have := of_decide_eq_true hbmem.2
  omega



theorem pushPointLast_map_timestamp : ∀ (l : List Bucket) (p : Point),
    (pushPointLast l p).map Bucket.timestamp = l.map Bucket.timestamp
  | [], _ => rfl
  | [_], _ => rfl
  | b :: c :: cs, p => by
    simp only [pushPointLast, List.map_cons, List.cons.injEq, true_and]
    have := pushPointLast_map_timestamp (c :: cs) p
    simpa using this

theorem pushPointLast_length : ∀ (l : List Bucket) (p : Point),
    (pushPointLast l p).length = l.length
  | [], _ => rfl
  | [_], _ => rfl
  | b :: c :: cs, p => by
    simp only [pushPointLast, List.length_cons]
    rw [pushPointLast_length (c :: cs) p]
    simp

theorem update_window_length_pos (w : Window) (now : Int) :
    0 < (w.update_window_returning_latest_bucket now).buckets.length := by
  unfold Window.update_window_returning_latest_bucket
  cases hl : w.buckets.getLast? with
  | none => simp
  | some bucket =>
    have hne : w.buckets ≠ [] := by
      intro hnil; rw [hnil] at hl; simp at hl
    have hpos : 0 < w.buckets.length := List.length_pos.mpr hne
    dsimp only
    split
    · exact hpos
    · split
      · simp only [List.length_tail, List.length_append, List.length_cons,
          List.length_nil]
        omega
      · simp only [List.length_append, List.length_cons, List.length_nil]
        omega

theorem update_window_fields (w : Window) (now : Int) :
    (w.update_window_returning_latest_bucket now).bucket_ms = w.bucket_ms ∧
    (w.update_window_returning_latest_bucket now).buckets_nr = w.buckets_nr ∧
    (w.update_window_returning_latest_bucket now).window_size = w.window_size := by
  unfold Window.update_window_returning_latest_bucket
  cases w.buckets.getLast? with
  | none => exact ⟨rfl, rfl, rfl⟩
  | some bucket =>
    dsimp only
    split
    · exact ⟨rfl, rfl, rfl⟩
    · split
      · exact ⟨rfl, rfl, rfl⟩
      · exact ⟨rfl, rfl, rfl⟩

theorem add_point_fields (w : Window) (now : Int) (p : Point) :
    (w.add_point now p).bucket_ms = w.bucket_ms ∧
    (w.add_point now p).buckets_nr = w.buckets_nr ∧
    (w.add_point now p).window_size = w.window_size := by
  unfold Window.add_point
  exact update_window_fields w now

theorem add_point_buckets_ne_nil (w : Window) (now : Int) (p : Point) :
    (w.add_point now p).buckets ≠ [] := by
  have hlen : (w.add_point now p).buckets.length =
      (w.update_window_returning_latest_bucket now).buckets.length := by
    unfold Window.add_point
    exact pushPointLast_length _ _
  intro hnil
  have := update_window_length_pos w now
  rw [← hlen, hnil] at this
  simp at this

theorem bucketsOrdered_iff_map (l : List Bucket) :
    bucketsOrdered l ↔ List.Chain' (· < ·) (l.map Bucket.timestamp) :=
  (List.chain'_map Bucket.timestamp).symm

theorem update_window_inv (w : Window) (now : Int) (hms : 0 < w.bucket_ms)
    (hnr : 0 < w.buckets_nr) (h : WindowInv w) :
    WindowInv (w.update_window_returning_latest_bucket now) := by
  obtain ⟨hord, hlen⟩ := h
  unfold Window.update_window_returning_latest_bucket
  cases hl : w.buckets.getLast? with
  | none =>
    refine ⟨List.chain'_singleton _, ?_⟩
    simpa using hnr
  | some bucket =>
    dsimp only
    split
    · exact ⟨hord, hlen⟩
    · have hord2 : bucketsOrdered
          (w.buckets ++ [{ points := [], timestamp := bucket.timestamp + (w.bucket_ms : Int) }]) := by
        refine List.chain'_append.mpr ⟨hord, List.chain'_singleton _, ?_⟩
        intro x hx y hy
        rw [hl] at hx
        simp only [Option.mem_def, Option.some.injEq] at hx
        simp only [List.head?_cons, Option.mem_def, Option.some.injEq] at hy
        subst hx; subst hy
        simp only
        omega
      split
      · refine ⟨List.Chain'.tail hord2, ?_⟩
        simp only [List.length_tail, List.length_append, List.length_cons, List.length_nil]
        omega
      · refine ⟨hord2, ?_⟩
        simp only [List.length_append, List.length_cons, List.length_nil] at *
        omega

theorem add_point_inv (w : Window) (now : Int) (p : Point) (hms : 0 < w.bucket_ms)
    (hnr : 0 < w.buckets_nr) (h : WindowInv w) : WindowInv (w.add_point now p) := by
  obtain ⟨hord, hlen⟩ := update_window_inv w now hms hnr h
  unfold Window.add_point
  dsimp only
  constructor
  · rw [bucketsOrdered_iff_map, pushPointLast_map_timestamp, ← bucketsOrdered_iff_map]
    exact hord
  · rw [pushPointLast_length]
    exact hlen



theorem applyOp_fields (w : Window) (op : WindowOp) :
    (w.applyOp op).bucket_ms = w.bucket_ms ∧
    (w.applyOp op).buckets_nr = w.buckets_nr := by
  cases op with
  | add now p => exact ⟨(add_point_fields w now p).1, (add_point_fields w now p).2.1⟩
  | snapshot now => exact ⟨rfl, rfl⟩
  | clear => exact ⟨rfl, rfl⟩

theorem applyOp_inv (w : Window) (op : WindowOp) (hms : 0 < w.bucket_ms)
    (hnr : 0 < w.buckets_nr) (h : WindowInv w) : WindowInv (w.applyOp op) := by
  cases op with
  | add now p => exact add_point_inv w now p hms hnr h
  | snapshot now => exact h
  | clear =>
    refine ⟨List.chain'_nil, ?_⟩
    simp [Window.clear_window, Window.applyOp]

theorem applyOps_inv (ops : List WindowOp) (w : Window) (hms : 0 < w.bucket_ms)
    (hnr : 0 < w.buckets_nr) (h : WindowInv w) : WindowInv (w.applyOps ops) := by
  induction ops generalizing w with
  | nil => exact h
  | cons op rest ih =>
    have hf := applyOp_fields w op
    exact ih (w.applyOp op) (hf.1 ▸ hms) (hf.2 ▸ hnr) (applyOp_inv w op hms hnr h)

theorem applyOps_fields (ops : List WindowOp) (w : Window) :
    (w.applyOps ops).bucket_ms = w.bucket_ms ∧
    (w.applyOps ops).buckets_nr = w.buckets_nr := by
  induction ops generalizing w with
  | nil => exact ⟨rfl, rfl⟩
  | cons op rest ih =>
    have h1 := applyOp_fields w op
    have h2 := ih (w.applyOp op)
    exact ⟨h2.1.trans h1.1, h2.2.trans h1.2⟩

theorem window_new_elim (cfg : Config) (w : Window) (h : Window.new cfg = some w) :
    w.buckets = [] ∧ w.bucket_ms = durationFromMillis cfg.bucket_size_in_ms ∧
    w.buckets_nr = cfg.buckets_in_window ∧
    w.window_size = durationFromMillis cfg.bucket_size_in_ms * cfg.buckets_in_window := by
  unfold Window.new durationCheckedMul at h
  dsimp only at h
  split at h
  · simp only [Option.map_some', Option.some.injEq] at h
    subst h
    exact ⟨rfl, rfl, rfl, rfl⟩
  · simp at h

/-- C7 amended: with a positive bucket size and at least one bucket of
capacity, every sequence of operations preserves strictly increasing
timestamps and the capacity bound. -/
theorem c7_window_invariants (cfg : Config) (w0 : Window) (ops : List WindowOp)
    (hms : 0 < cfg.bucket_size_in_ms) (hnr : 0 < cfg.buckets_in_window)
    (hnew : Window.new cfg = some w0) :
    List.Chain' (· < ·) ((w0.applyOps ops).buckets.map Bucket.timestamp) ∧
    (w0.applyOps ops).buckets.length ≤ cfg.buckets_in_window := by
  obtain ⟨hbuckets, hbms, hbnr, hws⟩ := window_new_elim cfg w0 hnew
  have hms0 : 0 < w0.bucket_ms := by
    rw [hbms]; unfold durationFromMillis; omega
  have hnr0 : 0 < w0.buckets_nr := by rw [hbnr]; exact hnr
  have hinv0 : WindowInv w0 := by
    constructor
    · unfold bucketsOrdered
      rw [hbuckets]
      exact List.chain'_nil
    · rw [hbuckets]
      simp
  obtain ⟨hord, hlen⟩ := applyOps_inv ops w0 hms0 hnr0 hinv0
  have hnrEq : (w0.applyOps ops).buckets_nr = cfg.buckets_in_window :=
    (applyOps_fields ops w0).2.trans hbnr
  refine ⟨?_, ?_⟩
  · rw [← bucketsOrdered_iff_map]
    exact hord
  · rw [← hnrEq]
    exact hlen



theorem register_result_fields {T E : Type} (cb : CircuitBreaker) (now : Int)
    (res : Except E T) :
    (cb.register_result now res).config = cb.config ∧
    (cb.register_result now res).circuit_open_time = cb.circuit_open_time := by
  cases res with
  | ok _ => exact ⟨rfl, rfl⟩
  | error _ => exact ⟨rfl, rfl⟩

theorem check_command_allowed_config (cb : CircuitBreaker) (now : Int) :
    ((cb.check_command_allowed now).2).config = cb.config := by
  unfold CircuitBreaker.check_command_allowed
  split
  · rfl
  · split
    · rfl
    · split
      · rfl
      · rfl

theorem runEffect_config (cb : CircuitBreaker) (now : Int) (opOk : Bool) :
    (cb.runEffect now opOk).config = cb.config := by
  unfold CircuitBreaker.runEffect
  split
  · rfl
  · dsimp only
    split
    · exact ((register_result_fields _ now _).1).trans
        (check_command_allowed_config cb now)
    · exact check_command_allowed_config cb now

theorem closed_of_not_open_checks (cb : CircuitBreaker) (now : Int)
    (h1 : cb.should_close_open_circuit now = false)
    (h2 : cb.should_keep_circuit_open now = false) :
    cb.circuit_open_time = none := by
  cases hop : cb.circuit_open_time with
  | none => rfl
  | some t =>
    unfold CircuitBreaker.should_close_open_circuit at h1
    unfold CircuitBreaker.should_keep_circuit_open at h2
    rw [hop] at h1 h2
    simp only [decide_eq_false_iff_not, not_le, not_lt, gt_iff_lt] at h1 h2
    omega

theorem check_cases (cb : CircuitBreaker) (now : Int) :
    (cb.check_command_allowed now = (true, { cb with circuit_open_time := none })) ∨
    (cb.check_command_allowed now = (false, cb) ∧ cb.circuit_open_time ≠ none) ∨
    (cb.check_command_allowed now =
      (false,
        { cb with
            circuit_open_time := some now
            circuit_breaker_stats := cb.circuit_breaker_stats.clear })) ∨
    (cb.check_command_allowed now = (true, cb) ∧ cb.circuit_open_time = none) := by
  unfold CircuitBreaker.check_command_allowed
  by_cases h1 : cb.should_close_open_circuit now = true
  · left
    simp [h1]
  · by_cases h2 : cb.should_keep_circuit_open now = true
    · right; left
      refine ⟨by simp [h1, h2], ?_⟩
      intro hop
      unfold CircuitBreaker.should_keep_circuit_open at h2
      rw [hop] at h2
      simp at h2
    · by_cases h3 : cb.should_open_circuit now = true
      · right; right; left
        simp [h1, h2, h3]
      · right; right; right
        refine ⟨by simp [h1, h2, h3], ?_⟩
        exact closed_of_not_open_checks cb now (Bool.not_eq_true _ ▸ h1)
          (Bool.not_eq_true _ ▸ h2)

theorem runEffect_open_empty (cb : CircuitBreaker) (now : Int) (opOk : Bool)
    (ih : ∀ t, cb.circuit_open_time = some t →
      cb.circuit_breaker_stats.window.buckets = []) :
    ∀ t, (cb.runEffect now opOk).circuit_open_time = some t →
      (cb.runEffect now opOk).circuit_breaker_stats.window.buckets = [] := by
  intro t ht
  unfold CircuitBreaker.runEffect at ht ⊢
  by_cases hen : cb.config.circuit_breaker_enabled = false
  · rw [if_pos hen] at ht ⊢
    exact ih t ht
  · rw [if_neg hen] at ht ⊢
    dsimp only at ht ⊢
    rcases check_cases cb now with hc | ⟨hc, _⟩ | hc | ⟨hc, hop⟩ <;>
      rw [hc] at ht ⊢ <;> simp only [if_true, if_false, Bool.false_eq_true] at ht ⊢
    · rw [(register_result_fields _ now _).2] at ht
      simp at ht
    · exact ih t ht
    · rfl
    · rw [(register_result_fields _ now _).2, hop] at ht
      simp at ht



theorem breaker_new_elim (cfg : Config) (cb : CircuitBreaker)
    (h : CircuitBreaker.new cfg = .ok cb) :
    cb.circuit_open_time = none ∧ cb.config = cfg ∧
    cb.circuit_breaker_stats.window.buckets = [] := by
  unfold CircuitBreaker.new at h
  cases hw : Window.new cfg with
  | none => rw [hw] at h; simp at h
  | some w =>
    rw [hw] at h
    simp only [Except.ok.injEq] at h
    subst h
    exact ⟨rfl, rfl, (window_new_elim cfg w hw).1⟩

theorem reachable_open_empty (cfg : Config) (cb : CircuitBreaker)
    (h : CircuitBreaker.Reachable cfg cb) :
    ∀ t, cb.circuit_open_time = some t →
      cb.circuit_breaker_stats.window.buckets = [] := by
  induction h with
  | init cb0 h0 =>
    intro t ht
    rw [(breaker_new_elim cfg cb0 h0).1] at ht
    simp at ht
  | step cb0 now opOk _ ih => exact runEffect_open_empty cb0 now opOk ih

theorem check_open_not_elapsed (cb : CircuitBreaker) (t now : Int)
    (hopen : cb.circuit_open_time = some t)
    (hlt : now - t < (durationFromMillis cb.config.circuit_open_ms : Int)) :
    cb.check_command_allowed now = (false, cb) := by
  have h1 : cb.should_close_open_circuit now = false := by
    unfold CircuitBreaker.should_close_open_circuit CircuitBreaker.time_to_close_circuit
    rw [hopen]
    simp only [decide_eq_false_iff_not, not_le]
    omega
  have h2 : cb.should_keep_circuit_open now = true := by
    unfold CircuitBreaker.should_keep_circuit_open CircuitBreaker.time_to_close_circuit
    rw [hopen]
    simp only [gt_iff_lt, decide_eq_true_eq]
    omega
  unfold CircuitBreaker.check_command_allowed
  simp [h1, h2]

theorem check_open_elapsed (cb : CircuitBreaker) (t now : Int)
    (hopen : cb.circuit_open_time = some t)
    (hge : (durationFromMillis cb.config.circuit_open_ms : Int) ≤ now - t) :
    cb.check_command_allowed now = (true, { cb with circuit_open_time := none }) := by
  have h1 : cb.should_close_open_circuit now = true := by
    unfold CircuitBreaker.should_close_open_circuit CircuitBreaker.time_to_close_circuit
    rw [hopen]
    simp only [decide_eq_true_eq]
    omega
  unfold CircuitBreaker.check_command_allowed
  simp [h1]



theorem run_rejected {I O E : Type} (conv : CriusError → E) (c : Command I O E)
    (param : I) (now : Int)
    (hen : c.circuit_breaker.config.circuit_breaker_enabled = true)
    (hchk : (c.circuit_breaker.check_command_allowed now).1 = false) :
    (Command.run conv c param now).opInvoked = false ∧
    (Command.run conv c param now).command.circuit_breaker =
      (c.circuit_breaker.check_command_allowed now).2 ∧
    (Command.run conv c param now).result =
      (match c.fallback with
        | some fb => .ok (fb (conv CriusError.ExecutionRejected))
        | none => .error (conv CriusError.ExecutionRejected)) := by
  unfold Command.run
  rw [hen]
  simp only [Bool.true_eq_false, if_false]
  rw [hchk]
  simp only [Bool.false_eq_true, if_false]
  cases hfb : c.fallback with
  | some fb => exact ⟨rfl, rfl, rfl⟩
  | none => exact ⟨rfl, rfl, rfl⟩

theorem run_allowed {I O E : Type} (conv : CriusError → E) (c : Command I O E)
    (param : I) (now : Int)
    (hen : c.circuit_breaker.config.circuit_breaker_enabled = true)
    (hchk : (c.circuit_breaker.check_command_allowed now).1 = true) :
    (Command.run conv c param now).opInvoked = true ∧
    (Command.run conv c param now).command.circuit_breaker =
      ((c.circuit_breaker.check_command_allowed now).2.register_result now
        (c.cmd param)) ∧
    (Command.run conv c param now).result =
      (match c.cmd param, c.fallback with
        | .ok v, _ => .ok v
        | .error e, some fb => .ok (fb e)
        | .error e, none => .error e) := by
  unfold Command.run
  rw [hen]
  simp only [Bool.true_eq_false, if_false]
  rw [hchk]
  simp only [if_true]
  cases hres : c.cmd param with
  | ok v => exact ⟨rfl, rfl, rfl⟩
  | error e =>
    cases hfb : c.fallback with
    | some fb => exact ⟨rfl, rfl, rfl⟩
    | none => exact ⟨rfl, rfl, rfl⟩

/-- C9: with a fallback configured and the breaker enabled, `run`
never returns an error: operation errors are absorbed by the fallback
and rejected executions return the fallback of `RejectedExecution`. -/
theorem c9_fallback_absorbs_errors {I O E : Type} (conv : CriusError → E)
    (c : Command I O E) (fb : E → O) (hfb : c.fallback = some fb)
    (hen : c.circuit_breaker.config.circuit_breaker_enabled = true)
    (param : I) (now : Int) :
    (∃ v : O, (Command.run conv c param now).result = .ok v) ∧
    ((c.circuit_breaker.check_command_allowed now).1 = false →
      (Command.run conv c param now).result =
        .ok (fb (conv CriusError.ExecutionRejected))) ∧
    (∀ e : E, (c.circuit_breaker.check_command_allowed now).1 = true →
      c.cmd param = .error e →
      (Command.run conv c param now).result = .ok (fb e)) := by
  refine ⟨?_, ?_, ?_⟩
  · cases hchk : (c.circuit_breaker.check_command_allowed now).1 with
    | false =>
      refine ⟨fb (conv CriusError.ExecutionRejected), ?_⟩
      rw [(run_rejected conv c param now hen hchk).2.2, hfb]
    | true =>
      rw [(run_allowed conv c param now hen hchk).2.2]
      cases hres : c.cmd param with
      | ok v => exact ⟨v, rfl⟩
      | error e => exact ⟨fb e, by rw [hfb]⟩
  · intro hchk
    rw [(run_rejected conv c param now hen hchk).2.2, hfb]
  · intro e hchk hres
    rw [(run_allowed conv c param now hen hchk).2.2, hres, hfb]



/-- C4: for any reachable Open breaker state, while the elapsed time
since the trip is below `circuit_open_ms` every check denies and
leaves the state unchanged; once it reaches `circuit_open_ms`, the
next check allows, closes the breaker, and the observable
failure/success counts are zero. -/
theorem c4_open_timer (cfg : Config) (cb : CircuitBreaker) (t : Int)
    (hreach : CircuitBreaker.Reachable cfg cb)
    (hopen : cb.circuit_open_time = some t) (now now2 : Int) :
    (now - t < (durationFromMillis cb.config.circuit_open_ms : Int) →
      cb.check_command_allowed now = (false, cb)) ∧
    ((durationFromMillis cb.config.circuit_open_ms : Int) ≤ now - t →
      (cb.check_command_allowed now).1 = true ∧
      (cb.check_command_allowed now).2.circuit_open_time = none ∧
      (cb.check_command_allowed now).2.circuit_breaker_stats.error_nr now2 = 0 ∧
      (cb.check_command_allowed now).2.circuit_breaker_stats.success_nr now2 = 0) := by
  constructor
  · intro hlt
    exact check_open_not_elapsed cb t now hopen hlt
  · intro hge
    rw [check_open_elapsed cb t now hopen hge]
    have hemp : cb.circuit_breaker_stats.window.buckets = [] :=
      reachable_open_empty cfg cb hreach t hopen
    exact ⟨rfl, rfl, (stats_counts_of_empty _ hemp now2).1,
      (stats_counts_of_empty _ hemp now2).2⟩

theorem check_trips_on_empty (cb : CircuitBreaker)
    (hopen : cb.circuit_open_time = none)
    (hemp : cb.circuit_breaker_stats.window.buckets = [])
    (hth : cb.config.error_threshold ≤ 0)
    (hpc : cb.config.error_threshold_percentage ≤ 0) (now : Int) :
    cb.check_command_allowed now =
      (false,
        { cb with
            circuit_open_time := some now
            circuit_breaker_stats := cb.circuit_breaker_stats.clear }) := by
  have h1 : cb.should_close_open_circuit now = false := by
    unfold CircuitBreaker.should_close_open_circuit
    rw [hopen]
  have h2 : cb.should_keep_circuit_open now = false := by
    unfold CircuitBreaker.should_keep_circuit_open
    rw [hopen]
  have h3 : cb.should_open_circuit now = true := by
    unfold CircuitBreaker.should_open_circuit
    rw [(stats_counts_of_empty _ hemp now).1, (stats_pct_of_empty _ hemp now).1]
    simp only [ge_iff_le, Bool.and_eq_true, decide_eq_true_eq]
    omega
  unfold CircuitBreaker.check_command_allowed
  simp [h1, h2, h3]

theorem define_elim {I O E : Type} (cfg : Config) (cmd : I → Except E O)
    (c : Command I O E) (h : Command.define cfg cmd = .ok c) :
    c.cmd = cmd ∧ c.fallback = none ∧ CircuitBreaker.new cfg = .ok c.circuit_breaker := by
  unfold Command.define at h
  cases hcb : CircuitBreaker.new cfg with
  | error e => rw [hcb] at h; simp at h
  | ok cb =>
    rw [hcb] at h
    simp only [Except.ok.injEq] at h
    subst h
    exact ⟨rfl, rfl, rfl⟩

theorem define_with_fallback_elim {I O E : Type} (cfg : Config) (cmd : I → Except E O)
    (fb : E → O) (c : Command I O E)
    (h : Command.define_with_fallback cfg cmd fb = .ok c) :
    c.cmd = cmd ∧ c.fallback = some fb ∧
    CircuitBreaker.new cfg = .ok c.circuit_breaker := by
  unfold Command.define_with_fallback at h
  cases hcb : CircuitBreaker.new cfg with
  | error e => rw [hcb] at h; simp at h
  | ok cb =>
    rw [hcb] at h
    simp only [Except.ok.injEq] at h
    subst h
    exact ⟨rfl, rfl, rfl⟩

/-- C10: with both thresholds at most 0 and the breaker enabled, the
very first `run` call of a fresh command is rejected without invoking
the operation, because the empty window satisfies both degenerate
threshold comparisons. -/
theorem c10_degenerate_thresholds {I O E : Type} (conv : CriusError → E) (cfg : Config)
    (cmd : I → Except E O) (fb : E → O) (c cF : Command I O E)
    (hth : cfg.error_threshold ≤ 0) (hpc : cfg.error_threshold_percentage ≤ 0)
    (hen : cfg.circuit_breaker_enabled = true)
    (hdef : Command.define cfg cmd = .ok c)
    (hdefF : Command.define_with_fallback cfg cmd fb = .ok cF)
    (param : I) (now : Int) :
    (Command.run conv c param now).opInvoked = false ∧
    (Command.run conv c param now).result = .error (conv CriusError.ExecutionRejected) ∧
    (Command.run conv c param now).command.circuit_breaker.circuit_open_time = some now ∧
    (Command.run conv cF param now).opInvoked = false ∧
    (Command.run conv cF param now).result = .ok (fb (conv CriusError.ExecutionRejected)) := by
  obtain ⟨hcmd, hfb, hcb⟩ := define_elim cfg cmd c hdef
  obtain ⟨hcmdF, hfbF, hcbF⟩ := define_with_fallback_elim cfg cmd fb cF hdefF
  obtain ⟨hop, hcfg, hemp⟩ := breaker_new_elim cfg _ hcb
  obtain ⟨hopF, hcfgF, hempF⟩ := breaker_new_elim cfg _ hcbF
  have hchk := check_trips_on_empty c.circuit_breaker hop hemp
    (by rw [hcfg]; exact hth) (by rw [hcfg]; exact hpc) now
  have hchkF := check_trips_on_empty cF.circuit_breaker hopF hempF
    (by rw [hcfgF]; exact hth) (by rw [hcfgF]; exact hpc) now
  have hr := run_rejected conv c param now (by rw [hcfg]; exact hen)
    (by rw [hchk])
  have hrF := run_rejected conv cF param now (by rw [hcfgF]; exact hen)
    (by rw [hchkF])
  refine ⟨hr.1, ?_, ?_, hrF.1, ?_⟩
  · rw [hr.2.2, hfb]
  · rw [hr.2.1, hchk]
  · rw [hrF.2.2, hfbF]



/-- C1 (code bug evaluation): on a window holding one success and one
failure, the code returns 0 for both percentages, where the claimed
formula `(count * 100) / total` yields 50; their sum is 0, not 100. -/
theorem c1_percentage_formula_bug :
    Window.new Config.default = some baseWindow ∧
    (c1Stats.window.update_and_get_points 0).1 = [Point.SUCCESS, Point.FAILURE] ∧
    c1Stats.success_nr 0 = 1 ∧
    c1Stats.error_nr 0 = 1 ∧
    c1Stats.success_percentage 0 = 0 ∧
    c1Stats.error_percentage 0 = 0 ∧
    c1Stats.success_percentage 0 + c1Stats.error_percentage 0 = 0 ∧
    (1 * 100) / 2 = (50 : Int) := by
  refine ⟨rfl, rfl, rfl, rfl, rfl, rfl, rfl, rfl⟩

/-- C2 (code bug evaluation): Closed breaker, thresholds 1 failure /
50 percent, window holding one failure and one success.  The true
failure percentage is `1 * 100 / 2 = 50 ≥ 50` and the failure count is
`1 ≥ 1`, so per the claim the next check must trip and deny; the code
allows the call and stays Closed, because its `error_percentage`
computes `(1 / 2) * 100 = 0`. -/
theorem c2_trip_condition_bug :
    CircuitBreaker.new c2Config = .ok c2Breaker0 ∧
    c2Breaker.circuit_open_time = none ∧
    c2Breaker.config.error_threshold = 1 ∧
    c2Breaker.config.error_threshold_percentage = 50 ∧
    c2Breaker.circuit_breaker_stats.error_nr 0 = 1 ∧
    (c2Breaker.circuit_breaker_stats.window.update_and_get_points 0).1.length = 2 ∧
    (1 * 100) / 2 ≥ (50 : Int) ∧
    c2Breaker.circuit_breaker_stats.error_percentage 0 = 0 ∧
    c2Breaker.check_command_allowed 0 = (true, c2Breaker) := by
  refine ⟨rfl, rfl, rfl, rfl, rfl, rfl, by decide, rfl, by decide⟩

/-- C3: end-to-end with `error_threshold = 5`,
`error_threshold_percentage = 50` and an always-failing operation, six
calls in one window span: calls 1-5 execute and return the operation
error, call 6 is rejected without invoking the operation; with the
fallback `|_| 5` every call returns `Ok(5)`. -/
theorem c3_end_to_end :
    Command.define c3Config c3Op = .ok c3Command ∧
    Command.define_with_fallback c3Config c3Op c3Fb = .ok c3CommandFb ∧
    (c3Command.runMany testConv () [0, 0, 0, 0, 0, 0]).1 =
      [(.error TestError.internal, true), (.error TestError.internal, true),
        (.error TestError.internal, true), (.error TestError.internal, true),
        (.error TestError.internal, true), (.error TestError.external, false)] ∧
    (c3CommandFb.runMany testConv () [0, 0, 0, 0, 0, 0]).1 =
      [(.ok 5, true), (.ok 5, true), (.ok 5, true), (.ok 5, true), (.ok 5, true),
        (.ok 5, false)] := by
  refine ⟨rfl, rfl, by decide, by decide⟩

/-- C5 witness at a concrete window. -/
theorem c5_witness :
    Point.SUCCESS ∈ (c5Window.update_and_get_points 1).1 ∧
    ∃ b : Bucket, b ∈ c5Window.buckets ∧ Point.SUCCESS ∈ b.points ∧
      (1 : Int) - b.timestamp < (c5Window.window_size : Int) :=
  ⟨by decide, c5_snapshot_recent c5Window 1 Point.SUCCESS (by decide)⟩

/-- C6 counterexample: on a freshly constructed (empty) window the
snapshot operation creates no bucket and leaves the window unchanged,
contradicting the claim that every snapshot call first advances or
creates the current bucket. -/
theorem c6_counterexample :
    Window.new Config.default = some baseWindow ∧
    baseWindow.buckets = [] ∧
    (baseWindow.update_and_get_points 5).2 = baseWindow ∧
    ((baseWindow.update_and_get_points 5).2).buckets.length = 0 :=
  ⟨rfl, rfl, rfl, rfl⟩

/-- C6 amended: `update_and_get_points` never modifies the window;
the bucket sequence advances only through `add_point`, which always
leaves at least one bucket. -/
theorem c6_snapshot_no_side_effect :
    (∀ (w : Window) (now : Int), (w.update_and_get_points now).2 = w) ∧
    (∀ (w : Window) (now : Int) (p : Point), (w.add_point now p).buckets ≠ []) :=
  ⟨fun _ _ => rfl, fun w now p => add_point_buckets_ne_nil w now p⟩

/-- C7 counterexample: with `buckets_in_window = 0` a single
`add_point` makes the bucket count exceed the capacity, and with
`bucket_size_ms = 0` two `add_point` calls produce two buckets with
equal timestamps, so the strict-increase invariant fails. -/
theorem c7_counterexample :
    Window.new c7ZeroBucketsConfig = some c7ZeroBucketsWindow ∧
    (c7ZeroBucketsWindow.add_point 0 Point.SUCCESS).buckets.length = 1 ∧
    ¬ ((c7ZeroBucketsWindow.add_point 0 Point.SUCCESS).buckets.length ≤
        c7ZeroBucketsConfig.buckets_in_window) ∧
    Window.new c7ZeroSizeConfig = some c7ZeroSizeWindow ∧
    ((c7ZeroSizeWindow.add_point 0 Point.SUCCESS).add_point 0 Point.SUCCESS).buckets.map
        Bucket.timestamp = [0, 0] ∧
    ¬ List.Chain' (· < ·)
        (((c7ZeroSizeWindow.add_point 0 Point.SUCCESS).add_point 0
            Point.SUCCESS).buckets.map Bucket.timestamp) := by
  refine ⟨rfl, rfl, by decide, rfl, rfl, ?_⟩
  intro h
  rw [show ((c7ZeroSizeWindow.add_point 0 Point.SUCCESS).add_point 0
      Point.SUCCESS).buckets.map Bucket.timestamp = [0, 0] from rfl] at h
  simp only [List.chain'_cons, List.chain'_singleton, and_true] at h
  omega

/-- C7 witness for the amended invariant theorem. -/
theorem c7_witness :
    0 < Config.default.bucket_size_in_ms ∧
    0 < Config.default.buckets_in_window ∧
    (List.Chain' (· < ·)
      ((baseWindow.applyOps
        [WindowOp.add 0 Point.SUCCESS, WindowOp.add 1500000000 Point.FAILURE,
          WindowOp.snapshot 2000000000]).buckets.map Bucket.timestamp) ∧
    (baseWindow.applyOps
        [WindowOp.add 0 Point.SUCCESS, WindowOp.add 1500000000 Point.FAILURE,
          WindowOp.snapshot 2000000000]).buckets.length ≤
      Config.default.buckets_in_window) :=
  ⟨by decide, by decide,
    c7_window_invariants Config.default baseWindow
      [WindowOp.add 0 Point.SUCCESS, WindowOp.add 1500000000 Point.FAILURE,
        WindowOp.snapshot 2000000000] (by decide) (by decide) rfl⟩



/-- C8: construction fails with `InvalidConfig` exactly when
`bucket_size_ms * buckets_in_window` overflows the duration
representation; otherwise the window is empty and `define` yields a
command over a fresh Closed breaker. -/
theorem c8_construction (cfg : Config) :
    ((Window.new cfg = none) ↔
      durationMaxNanos < durationFromMillis cfg.bucket_size_in_ms * cfg.buckets_in_window) ∧
    (∀ w : Window, Window.new cfg = some w → w.buckets = []) ∧
    ((CircuitBreaker.new cfg = .error CriusError.InvalidConfig) ↔ Window.new cfg = none) ∧
    (∀ (I O E : Type) (cmd : I → Except E O),
      ((Command.define cfg cmd =
          (.error CriusError.InvalidConfig : Except CriusError (Command I O E))) ↔
        Window.new cfg = none) ∧
      (∀ c : Command I O E, Command.define cfg cmd = .ok c →
        c.circuit_breaker.circuit_breaker_stats.window.buckets = [] ∧
        c.fallback = none ∧ c.circuit_breaker.circuit_open_time = none)) ∧
    (∀ (I O E : Type) (cmd : I → Except E O) (fb : E → O),
      ((Command.define_with_fallback cfg cmd fb =
          (.error CriusError.InvalidConfig : Except CriusError (Command I O E))) ↔
        Window.new cfg = none) ∧
      (∀ c : Command I O E, Command.define_with_fallback cfg cmd fb = .ok c →
        c.circuit_breaker.circuit_breaker_stats.window.buckets = [] ∧
        c.fallback = some fb ∧ c.circuit_breaker.circuit_open_time = none)) := by
  have hiff : (Window.new cfg = none) ↔
      ¬ (durationFromMillis cfg.bucket_size_in_ms * cfg.buckets_in_window ≤
          durationMaxNanos) := by
    unfold Window.new durationCheckedMul
    dsimp only
    split
    · simp [*]
    · simp [*]
  refine ⟨by rw [hiff, Nat.not_le], fun w hw => (window_new_elim cfg w hw).1, ?_, ?_, ?_⟩
  · unfold CircuitBreaker.new
    cases hw : Window.new cfg with
    | none => simp
    | some w => simp
  · intro I O E cmd
    constructor
    · unfold Command.define CircuitBreaker.new
      cases hw : Window.new cfg with
      | none => simp
      | some w => simp
    · intro c hc
      obtain ⟨hcmd, hfb, hcb⟩ := define_elim cfg cmd c hc
      obtain ⟨hop, hcfg, hemp⟩ := breaker_new_elim cfg _ hcb
      exact ⟨hemp, hfb, hop⟩
  · intro I O E cmd fb
    constructor
    · unfold Command.define_with_fallback CircuitBreaker.new
      cases hw : Window.new cfg with
      | none => simp
      | some w => simp
    · intro c hc
      obtain ⟨hcmd, hfb, hcb⟩ := define_with_fallback_elim cfg cmd fb c hc
      obtain ⟨hop, hcfg, hemp⟩ := breaker_new_elim cfg _ hcb
      exact ⟨hemp, hfb, hop⟩

/-- C8 witness: the overflowing configuration is rejected by both
constructors, and a non-overflowing configuration yields an empty
window and usable commands from both constructors. -/
theorem c8_witness :
    Window.new c8OverflowConfig = none ∧
    Command.define c8OverflowConfig c10Op =
      (.error CriusError.InvalidConfig : Except CriusError (Command Unit Int TestError)) ∧
    Command.define_with_fallback c8OverflowConfig c10Op c3Fb =
      (.error CriusError.InvalidConfig : Except CriusError (Command Unit Int TestError)) ∧
    baseWindow.buckets = [] ∧
    (c10Command.circuit_breaker.circuit_breaker_stats.window.buckets = [] ∧
      c10Command.fallback = none) ∧
    (c10CommandFb.circuit_breaker.circuit_breaker_stats.window.buckets = [] ∧
      c10CommandFb.fallback = some c3Fb) := by
  have hnone : Window.new c8OverflowConfig = none :=
    (c8_construction c8OverflowConfig).1.mpr (by decide)
  have hok := ((c8_construction c10Config).2.2.2.1 Unit Int TestError c10Op).2
    c10Command rfl
  have hokF := ((c8_construction c10Config).2.2.2.2 Unit Int TestError c10Op c3Fb).2
    c10CommandFb rfl
  refine ⟨hnone, ?_, ?_, (c8_construction Config.default).2.1 baseWindow rfl,
    ⟨hok.1, hok.2.1⟩, ⟨hokF.1, hokF.2.1⟩⟩
  · exact ((c8_construction c8OverflowConfig).2.2.2.1 Unit Int TestError c10Op).1.mpr
      hnone
  · exact ((c8_construction c8OverflowConfig).2.2.2.2 Unit Int TestError c10Op
      c3Fb).1.mpr hnone

/-- C9 witness at a concrete command. -/
theorem c9_witness :
    c9Command.fallback = some c3Fb ∧
    c9Command.circuit_breaker.config.circuit_breaker_enabled = true ∧
    (∃ v : Int, (Command.run testConv c9Command () 0).result = .ok v) :=
  ⟨rfl, rfl, (c9_fallback_absorbs_errors testConv c9Command c3Fb rfl rfl () 0).1⟩

/-- C10 witness at a concrete command. -/
theorem c10_witness :
    c10Config.error_threshold ≤ 0 ∧
    c10Config.error_threshold_percentage ≤ 0 ∧
    c10Config.circuit_breaker_enabled = true ∧
    (Command.run testConv c10Command () 0).opInvoked = false ∧
    (Command.run testConv c10Command () 0).result =
      .error (testConv CriusError.ExecutionRejected) ∧
    (Command.run testConv c10CommandFb () 0).result =
      .ok (c3Fb (testConv CriusError.ExecutionRejected)) := by
  have h := c10_degenerate_thresholds testConv c10Config c10Op c3Fb c10Command
    c10CommandFb (by decide) (by decide) rfl rfl rfl () 0
  exact ⟨by decide, by decide, rfl, h.1, h.2.1, h.2.2.2.2⟩

/-- C4 witness: a breaker tripped at instant 0 with
`circuit_open_ms = 5000` denies at instant 1 and recovers with empty
counts at instant 6e9 ns. -/
theorem c4_witness :
    c4BreakerOpen.circuit_open_time = some 0 ∧
    c4BreakerOpen.check_command_allowed 1 = (false, c4BreakerOpen) ∧
    (c4BreakerOpen.check_command_allowed 6000000000).1 = true ∧
    (c4BreakerOpen.check_command_allowed 6000000000).2.circuit_open_time = none ∧
    (c4BreakerOpen.check_command_allowed
        6000000000).2.circuit_breaker_stats.error_nr 7000000000 = 0 ∧
    (c4BreakerOpen.check_command_allowed
        6000000000).2.circuit_breaker_stats.success_nr 7000000000 = 0 := by
  have hreach : CircuitBreaker.Reachable c10Config c4BreakerOpen :=
    CircuitBreaker.Reachable.step c10Breaker0 0 false
      (CircuitBreaker.Reachable.init c10Breaker0 rfl)
  have h1 := (c4_open_timer c10Config c4BreakerOpen 0 hreach (by decide) 1 0).1
    (by decide)
  have h2 := (c4_open_timer c10Config c4BreakerOpen 0 hreach (by decide) 6000000000
    7000000000).2 (by decide)
  exact ⟨by decide, h1, h2.1, h2.2.1, h2.2.2.1, h2.2.2.2⟩

end Crius
